import Mathlib

/-!
Verification of the tray library (src/tray.h, src/tray_windows.c): a shallow
embedding of its menu builder, command dispatch, icon cache, notify-icon
state controller and message loop, together with theorems settling the
specification claims.

Modelling conventions:
* C strings are lists of characters (`Str`); a NUL-terminated buffer of
  capacity `cap` holds at most `cap - 1` characters.
* The caller-owned `struct tray_menu` sibling arrays (terminated by a
  null-text sentinel) are `MenuList`; a NULL submenu pointer is `none`,
  a pointer to a sentinel-only array is `some MenuList.nil`.
* The native HMENU tree is `NativeMenu`; `dwItemData` (a raw pointer to the
  originating `struct tray_menu`) is modelled as the node's access path in
  the caller's tree (`dataPath`); a separator item carries no data, exactly
  as `InsertMenuA(hmenu, *id, MF_SEPARATOR, 0, NULL)` sets none.
* OS calls (icon decoding, class/window/shell registration, menu tracking)
  are oracle inputs; their observable effects are recorded in a `TrayState`
  and an ordered `Event` trace.
* The id counter is a `UINT`; wraparound at 2^32 would require a menu array
  of 2^32 nodes (hundreds of GiB), so the counter is modelled as `Nat`.
-/

namespace Tray

/-- A C string: list of characters (the bytes before the terminating NUL). -/
abbrev Str := List Char

/-- The separator text: a menu item whose text is exactly the string "-". -/
def sepText : Str := ['-']

mutual

/-- One `struct tray_menu` record: display text, `disabled`, `checked`,
`checkbox` flags, whether `cb` is non-null, and the `submenu` pointer
(`none` models NULL). -/
inductive MenuNode : Type where
| node (text : Str) (disabled checked checkbox hasCb : Bool)
    (submenu : Option MenuList) : MenuNode

/-- A sibling sequence of `struct tray_menu` records up to the null-text
sentinel (NULL array and sentinel-first array both end the sequence). -/
inductive MenuList : Type where
| nil : MenuList
| cons (hd : MenuNode) (tl : MenuList) : MenuList

end

def MenuNode.text : MenuNode → Str
| .node t _ _ _ _ _ => t

def MenuNode.disabled : MenuNode → Bool
| .node _ d _ _ _ _ => d

def MenuNode.checked : MenuNode → Bool
| .node _ _ c _ _ _ => c

def MenuNode.checkbox : MenuNode → Bool
| .node _ _ _ cb _ _ => cb

def MenuNode.hasCb : MenuNode → Bool
| .node _ _ _ _ h _ => h

def MenuNode.submenu : MenuNode → Option MenuList
| .node _ _ _ _ _ s => s

/-- Mutation `menu->checked = b` (all other fields untouched). -/
def MenuNode.setChecked : MenuNode → Bool → MenuNode
| .node t d _ cb h s, b => .node t d b cb h s

mutual

/-- One native menu item as created by `_tray_menu`: either a separator
(`InsertMenuA` with `MF_SEPARATOR`, no command id, no item data), or an
entry carrying `wID`, display text, the `MFS_DISABLED`/`MFS_CHECKED`
state bits, `dwItemData` (the back-reference, modelled as a path into the
caller's tree) and an optional submenu handle. -/
inductive NativeItem : Type where
| separator : NativeItem
| entry (wID : Nat) (text : Str) (disabled checked : Bool)
    (dataPath : List Nat) (sub : Option NativeMenu) : NativeItem

/-- A native popup menu: ordered list of inserted items. -/
inductive NativeMenu : Type where
| nil : NativeMenu
| cons (hd : NativeItem) (tl : NativeMenu) : NativeMenu

end

/-- The `dwItemData` of a native item: separators were inserted without item
data (the field stays 0); entries store the back-reference. -/
def NativeItem.itemData : NativeItem → Option (List Nat)
| .separator => none
| .entry _ _ _ _ p _ => some p

mutual

/-- Loop body of `_tray_menu` for one `struct tray_menu` record `m`
(source lines 191-216), at path `pp ++ [i]` in the caller's tree with the
running counter at `id`.  Returns the inserted item and the counter value
after the body (the loop's `(*id)++` is applied by `_tray_menu`).
A node whose text is exactly "-" becomes a separator (its submenu is never
visited); otherwise an entry is created, and if `m->submenu != NULL` the
submenu is built first, so `item.wID = *id` reads the counter value
reached after the recursion. -/
def _tray_menu_item : MenuNode → List Nat → Nat → Nat → NativeItem × Nat
| .node t d c _ _ sub, pp, i, id =>
  if t = sepText then
    (NativeItem.separator, id)
  else
    match sub with
    | none => (NativeItem.entry id t d c (pp ++ [i]) none, id)
    | some s =>
      let rs := _tray_menu s (pp ++ [i]) 0 id
      (NativeItem.entry rs.2 t d c (pp ++ [i]) (some rs.1), rs.2)

/-- Function `_tray_menu(m, id)` (source lines 189-219): builds a popup menu from the
sibling sequence `f`, threading the shared id counter; each loop iteration
runs the body and then increments the counter once. `pp` and `i` locate the
first sibling in the caller's tree (root call: `[]` and `0`). -/
def _tray_menu : MenuList → List Nat → Nat → Nat → NativeMenu × Nat
| .nil, _, _, id => (.nil, id)
| .cons m rest, pp, i, id =>
  let r1 := _tray_menu_item m pp i id
  let r2 := _tray_menu rest pp (i + 1) (r1.2 + 1)
  (.cons r1.1 r2.1, r2.2)

end

mutual

/-- Counter slots consumed by the body of one loop iteration (submenu nodes
only; the iteration's own `(*id)++` is counted by `forestCount`). -/
def nodeBodyCount : MenuNode → Nat
| .node t _ _ _ _ sub =>
  if t = sepText then 0
  else
    match sub with
    | none => 0
    | some s => forestCount s

/-- Total counter advance of `_tray_menu` over a sibling sequence: one slot
per node (separators included) plus the slots of all submenu nodes. -/
def forestCount : MenuList → Nat
| .nil => 0
| .cons m rest => 1 + nodeBodyCount m + forestCount rest

end

mutual

/-- Command identifiers of a native item in assignment order: for an entry
with a submenu the submenu identifiers were assigned before the entry's
own `wID` (children before parent). Separators contribute none. -/
def postIdsItem : NativeItem → List Nat
| .separator => []
| .entry w _ _ _ _ none => [w]
| .entry w _ _ _ _ (some s) => postIds s ++ [w]

/-- Command identifiers of a native menu in assignment order. -/
def postIds : NativeMenu → List Nat
| .nil => []
| .cons it rest => postIdsItem it ++ postIds rest

end

mutual

/-- Command identifiers of a native item in depth-first pre-order
(parent before its submenu). -/
def preIdsItem : NativeItem → List Nat
| .separator => []
| .entry w _ _ _ _ none => [w]
| .entry w _ _ _ _ (some s) => w :: preIds s

/-- Command identifiers of a native menu in depth-first pre-order. -/
def preIds : NativeMenu → List Nat
| .nil => []
| .cons it rest => preIdsItem it ++ preIds rest

end

/-- Constant `ID_TRAY_FIRST`: the running id counter starts at 1000. -/
def ID_TRAY_FIRST : Nat := 1000

mutual

theorem tray_menu_item_counter (m : MenuNode) (pp : List Nat) (i id : Nat) :
    (_tray_menu_item m pp i id).2 = id + nodeBodyCount m := by
  cases m with
  | node t d c cb h sub =>
    cases sub with
    | none =>
      by_cases hs : t = sepText <;> simp [_tray_menu_item, nodeBodyCount, hs]
    | some s =>
      by_cases hs : t = sepText
      · simp [_tray_menu_item, nodeBodyCount, hs]
      · simp [_tray_menu_item, nodeBodyCount, hs, tray_menu_counter s (pp ++ [i]) 0 id]

theorem tray_menu_counter (f : MenuList) (pp : List Nat) (i id : Nat) :
    (_tray_menu f pp i id).2 = id + forestCount f := by
  cases f with
  | nil => simp [_tray_menu, forestCount]
  | cons m rest =>
    simp only [_tray_menu, forestCount]
    rw [tray_menu_counter rest pp (i + 1) ((_tray_menu_item m pp i id).2 + 1),
      tray_menu_item_counter m pp i id]
    omega

end

mutual

theorem tray_menu_item_ids (m : MenuNode) (pp : List Nat) (i id : Nat) :
    List.Pairwise (· < ·) (postIdsItem (_tray_menu_item m pp i id).1) ∧
    ∀ w ∈ postIdsItem (_tray_menu_item m pp i id).1,
      id ≤ w ∧ w ≤ id + nodeBodyCount m := by
  cases m with
  | node t d c cb h sub =>
    cases sub with
    | none =>
      by_cases hs : t = sepText <;>
        simp [_tray_menu_item, postIdsItem, hs]
    | some s =>
      by_cases hs : t = sepText
      · simp [_tray_menu_item, postIdsItem, hs]
      · have hsub := tray_menu_ids s (pp ++ [i]) 0 id
        have hcnt := tray_menu_counter s (pp ++ [i]) 0 id
        simp only [_tray_menu_item, postIdsItem, hs, if_false, nodeBodyCount]
        constructor
        · rw [List.pairwise_append]
          refine ⟨hsub.1, by simp, ?_⟩
          intro a ha b hb
          simp only [List.mem_singleton] at hb
          subst hb
          have := (hsub.2 a ha).2
          omega
        · intro w hw
          rw [List.mem_append] at hw
          rcases hw with hw | hw
          · have h1 := (hsub.2 w hw).1
            have h2 := (hsub.2 w hw).2
            omega
          · simp only [List.mem_singleton] at hw
            subst hw
            omega

theorem tray_menu_ids (f : MenuList) (pp : List Nat) (i id : Nat) :
    List.Pairwise (· < ·) (postIds (_tray_menu f pp i id).1) ∧
    ∀ w ∈ postIds (_tray_menu f pp i id).1,
      id ≤ w ∧ w < id + forestCount f := by
  cases f with
  | nil => simp [_tray_menu, postIds]
  | cons m rest =>
    have hitem := tray_menu_item_ids m pp i id
    have hicnt := tray_menu_item_counter m pp i id
    have hrest := tray_menu_ids rest pp (i + 1) ((_tray_menu_item m pp i id).2 + 1)
    simp only [_tray_menu, postIds]
    constructor
    · rw [List.pairwise_append]
      refine ⟨hitem.1, hrest.1, ?_⟩
      intro a ha b hb
      have h1 := (hitem.2 a ha).2
      have h2 := (hrest.2 b hb).1
      omega
    · intro w hw
      rw [List.mem_append] at hw
      simp only [forestCount]
      rcases hw with hw | hw
      · have := hitem.2 w hw
        omega
      · have := hrest.2 w hw
        omega

end

/-- The identifiers assigned by one build are strictly increasing in
assignment (post-order) order, hence pairwise distinct. -/
theorem tray_menu_ids_nodup (f : MenuList) :
    (postIds (_tray_menu f [] 0 ID_TRAY_FIRST).1).Nodup :=
  ((tray_menu_ids f [] 0 ID_TRAY_FIRST).1).imp (fun hlt => Nat.ne_of_lt hlt)

/-! ### Command dispatch (`WM_COMMAND` branch of `_tray_wnd_proc`) -/

/-- The macro `LOWORD(wparam)`. -/
def LOWORD (w : Nat) : Nat := w % 65536

/-- The macro `HIWORD(wparam)`. -/
def HIWORD (w : Nat) : Nat := w / 65536 % 65536

mutual

/-- Call `GetMenuItemInfoA(…, cmd, FALSE, …)` restricted to one item: an entry
matches by its `wID`, else the search descends into its submenu; a
separator has no assigned identifier, so it can match only the default
identifier 0. -/
def findItemIn : NativeItem → Nat → Option NativeItem
| NativeItem.separator, cmd => if cmd = 0 then some NativeItem.separator else none
| NativeItem.entry w t d c p sub, cmd =>
  if w = cmd then some (NativeItem.entry w t d c p sub)
  else
    match sub with
    | some s => findItem s cmd
    | none => none

/-- Call `GetMenuItemInfoA(hmenu, cmd, FALSE, …)`: search the menu and its
submenus for the item with command identifier `cmd` (first match in
insertion order). -/
def findItem : NativeMenu → Nat → Option NativeItem
| NativeMenu.nil, _ => none
| NativeMenu.cons it rest, cmd =>
  match findItemIn it cmd with
  | some r => some r
  | none => findItem rest cmd

end

mutual

/-- Effect of `SetMenuItemInfoA` with `fMask = MIIM_STATE` and
`fState = checked ? MFS_CHECKED : 0` on the matched item: the full state
word is replaced, so the disabled bit is cleared and the check bit set
to `b`. -/
def setStateItem : NativeItem → Nat → Bool → NativeItem
| NativeItem.separator, _, _ => NativeItem.separator
| NativeItem.entry w t d c p sub, cmd, b =>
  if w = cmd then NativeItem.entry w t false b p sub
  else
    match sub with
    | some s => NativeItem.entry w t d c p (some (setState s cmd b))
    | none => NativeItem.entry w t d c p none

/-- Call `SetMenuItemInfoA(hmenu, cmd, FALSE, …)` with the state word
`b ? MFS_CHECKED : 0`: locate the item by command identifier with the same
search order as `GetMenuItemInfoA` and replace its state. -/
def setState : NativeMenu → Nat → Bool → NativeMenu
| NativeMenu.nil, _, _ => NativeMenu.nil
| NativeMenu.cons it rest, cmd, b =>
  match findItemIn it cmd with
  | some _ => NativeMenu.cons (setStateItem it cmd b) rest
  | none => NativeMenu.cons it (setState rest cmd b)

end

/-- The state replacement applied to the found item by
`SetMenuItemInfoA` with `fState = b ? MFS_CHECKED : 0`. -/
def applyState : NativeItem → Bool → NativeItem
| NativeItem.separator, _ => NativeItem.separator
| NativeItem.entry w t _ _ p sub, b => NativeItem.entry w t false b p sub

/-- Index into a sibling sequence (array element `l[i]`). -/
def MenuList.get? : MenuList → Nat → Option MenuNode
| MenuList.nil, _ => none
| MenuList.cons h _, 0 => some h
| MenuList.cons _ t, n + 1 => MenuList.get? t n

/-- Replace the `i`-th sibling (in-place mutation of the caller's array). -/
def MenuList.set : MenuList → Nat → MenuNode → MenuList
| MenuList.nil, _, _ => MenuList.nil
| MenuList.cons _ t, 0, x => MenuList.cons x t
| MenuList.cons h t, n + 1, x => MenuList.cons h (MenuList.set t n x)

/-- Replace the submenu forest of a node (used to represent an in-place
update of a node deep in the caller's tree). -/
def MenuNode.setSubmenu : MenuNode → MenuList → MenuNode
| .node t d c cb h _, s => .node t d c cb h (some s)

/-- Dereference a `dwItemData` back-reference: follow the access path
through submenu pointers to the originating `struct tray_menu` record. -/
def getNodeAt : MenuList → List Nat → Option MenuNode
| _, [] => none
| l, [i] => MenuList.get? l i
| l, i :: j :: rest =>
  match MenuList.get? l i with
  | some nd =>
    match nd.submenu with
    | some s => getNodeAt s (j :: rest)
    | none => none
  | none => none

/-- Write through a `dwItemData` back-reference: replace the record at the
given path in the caller's tree (models `menu->checked = !menu->checked`
mutating the caller-owned node). -/
def setNodeAt : MenuList → List Nat → MenuNode → MenuList
| l, [], _ => l
| l, [i], x => MenuList.set l i x
| l, i :: j :: rest, x =>
  match MenuList.get? l i with
  | some nd =>
    match nd.submenu with
    | some s => MenuList.set l i (nd.setSubmenu (setNodeAt s (j :: rest) x))
    | none => l
  | none => l

/-- Result of one `WM_COMMAND` dispatch: the caller's tree after any
checkbox mutation, the native menu after any `SetMenuItemInfoA`, and the
argument passed to the item callback if one was invoked (the node value
the callback observes, together with its path). -/
structure DispatchResult where
  tree : MenuList
  nm : NativeMenu
  cbArg : Option (List Nat × MenuNode)

/-- The `WM_COMMAND` branch of `_tray_wnd_proc` (source lines 114-135):
only menu messages (`HIWORD(wparam) == 0`) are handled; the low word is
resolved against the live menu; items without item data (separators, or
identifiers that resolve to nothing) are ignored silently; for a checkbox
node `checked` is flipped and the check visual re-applied before the
callback, which observes the node after the flip. -/
def wm_command (tree : MenuList) (nm : NativeMenu) (wparam : Nat) : DispatchResult :=
  if HIWORD wparam = 0 then
    match findItem nm (LOWORD wparam) with
    | some it =>
      match it.itemData with
      | some p =>
        match getNodeAt tree p with
        | some n =>
          if n.checkbox then
            let n₁ := n.setChecked (!n.checked)
            { tree := setNodeAt tree p n₁,
              nm := setState nm (LOWORD wparam) n₁.checked,
              cbArg := if n.hasCb then some (p, n₁) else none }
          else
            { tree := tree, nm := nm, cbArg := if n.hasCb then some (p, n) else none }
        | none => { tree := tree, nm := nm, cbArg := none }
      | none => { tree := tree, nm := nm, cbArg := none }
    | none => { tree := tree, nm := nm, cbArg := none }
  else { tree := tree, nm := nm, cbArg := none }

@[simp] theorem MenuNode.checkbox_setChecked (n : MenuNode) (b : Bool) :
    (n.setChecked b).checkbox = n.checkbox := by
  cases n
  rfl

@[simp] theorem MenuNode.checked_setChecked (n : MenuNode) (b : Bool) :
    (n.setChecked b).checked = b := by
  cases n
  rfl

@[simp] theorem MenuNode.hasCb_setChecked (n : MenuNode) (b : Bool) :
    (n.setChecked b).hasCb = n.hasCb := by
  cases n
  rfl

theorem MenuNode.setChecked_setChecked (n : MenuNode) (b c : Bool) :
    (n.setChecked b).setChecked c = n.setChecked c := by
  cases n
  rfl

theorem MenuNode.setChecked_self (n : MenuNode) : n.setChecked n.checked = n := by
  cases n
  rfl

@[simp] theorem MenuNode.submenu_setSubmenu (n : MenuNode) (s : MenuList) :
    (n.setSubmenu s).submenu = some s := by
  cases n
  rfl

theorem MenuList.get?_set_self : ∀ (l : MenuList) (i : Nat) (x n : MenuNode),
    MenuList.get? l i = some n → MenuList.get? (MenuList.set l i x) i = some x
| MenuList.nil, i, x, n, h => by simp [MenuList.get?] at h
| MenuList.cons hd tl, 0, x, n, h => by simp [MenuList.get?, MenuList.set]
| MenuList.cons hd tl, k + 1, x, n, h => by
  simp only [MenuList.get?, MenuList.set]
  exact MenuList.get?_set_self tl k x n (by simpa [MenuList.get?] using h)

/-- Writing a node through a back-reference path and reading it back through
the same path yields the written node. -/
theorem getNodeAt_setNodeAt : ∀ (l : MenuList) (p : List Nat) (x n : MenuNode),
    getNodeAt l p = some n → getNodeAt (setNodeAt l p x) p = some x
| _, [], x, n, h => by simp [getNodeAt] at h
| l, [i], x, n, h => by
  simpa only [getNodeAt, setNodeAt] using
    MenuList.get?_set_self l i x n (by simpa only [getNodeAt] using h)
| l, i :: j :: rest, x, n, h => by
  simp only [getNodeAt] at h
  cases hg : MenuList.get? l i with
  | none => simp only [hg] at h; exact Option.noConfusion h
  | some nd =>
    simp only [hg] at h
    cases hsub : nd.submenu with
    | none => simp only [hsub] at h; exact Option.noConfusion h
    | some s =>
      simp only [hsub] at h
      have hset := MenuList.get?_set_self l i
        (nd.setSubmenu (setNodeAt s (j :: rest) x)) nd hg
      have hrec := getNodeAt_setNodeAt s (j :: rest) x n h
      simp only [setNodeAt, getNodeAt, hg, hsub, hset, MenuNode.submenu_setSubmenu]
      exact hrec

theorem findItemIn_sep_map (cmd : Nat) (b : Bool) :
    findItemIn (setStateItem NativeItem.separator cmd b) cmd
      = (findItemIn NativeItem.separator cmd).map (fun r => applyState r b) := by
  by_cases h0 : cmd = 0 <;> simp [setStateItem, findItemIn, h0, applyState]

theorem setStateItem_entry_found (w : Nat) (t : Str) (d c : Bool) (p : List Nat)
    (sub : Option NativeMenu) (cmd : Nat) (b : Bool) (hw : w = cmd) :
    setStateItem (NativeItem.entry w t d c p sub) cmd b
      = NativeItem.entry w t false b p sub := by
  cases sub with
  | none => simp [setStateItem, hw]
  | some s => simp [setStateItem, hw]

theorem findItemIn_entry_found (w : Nat) (t : Str) (d c : Bool) (p : List Nat)
    (sub : Option NativeMenu) (cmd : Nat) (hw : w = cmd) :
    findItemIn (NativeItem.entry w t d c p sub) cmd
      = some (NativeItem.entry w t d c p sub) := by
  cases sub with
  | none => simp [findItemIn, hw]
  | some s => simp [findItemIn, hw]

theorem findItemIn_entry_eq_map (w : Nat) (t : Str) (d c : Bool) (p : List Nat)
    (sub : Option NativeMenu) (cmd : Nat) (b : Bool) (hw : w = cmd) :
    findItemIn (setStateItem (NativeItem.entry w t d c p sub) cmd b) cmd
      = (findItemIn (NativeItem.entry w t d c p sub) cmd).map
          (fun r => applyState r b) := by
  rw [setStateItem_entry_found w t d c p sub cmd b hw,
    findItemIn_entry_found w t false b p sub cmd hw,
    findItemIn_entry_found w t d c p sub cmd hw]
  rfl

theorem findItemIn_entry_ne_none_map (w : Nat) (t : Str) (d c : Bool) (p : List Nat)
    (cmd : Nat) (b : Bool) (hw : w ≠ cmd) :
    findItemIn (setStateItem (NativeItem.entry w t d c p none) cmd b) cmd
      = (findItemIn (NativeItem.entry w t d c p none) cmd).map
          (fun r => applyState r b) := by
  simp [setStateItem, findItemIn, hw]

theorem setStateItem_entry_ne_some (w : Nat) (t : Str) (d c : Bool) (p : List Nat)
    (s : NativeMenu) (cmd : Nat) (b : Bool) (hw : w ≠ cmd) :
    setStateItem (NativeItem.entry w t d c p (some s)) cmd b
      = NativeItem.entry w t d c p (some (setState s cmd b)) := by
  simp [setStateItem, hw]

theorem findItemIn_entry_ne_some (w : Nat) (t : Str) (d c : Bool) (p : List Nat)
    (s : NativeMenu) (cmd : Nat) (hw : w ≠ cmd) :
    findItemIn (NativeItem.entry w t d c p (some s)) cmd = findItem s cmd := by
  simp [findItemIn, hw]

theorem setState_cons_found (it : NativeItem) (rest : NativeMenu) (cmd : Nat)
    (b : Bool) (r : NativeItem) (hf : findItemIn it cmd = some r) :
    setState (NativeMenu.cons it rest) cmd b
      = NativeMenu.cons (setStateItem it cmd b) rest := by
  simp [setState, hf]

theorem setState_cons_none (it : NativeItem) (rest : NativeMenu) (cmd : Nat)
    (b : Bool) (hf : findItemIn it cmd = none) :
    setState (NativeMenu.cons it rest) cmd b
      = NativeMenu.cons it (setState rest cmd b) := by
  simp [setState, hf]

theorem findItem_cons_found (it : NativeItem) (rest : NativeMenu) (cmd : Nat)
    (r : NativeItem) (hf : findItemIn it cmd = some r) :
    findItem (NativeMenu.cons it rest) cmd = some r := by
  simp [findItem, hf]

theorem findItem_cons_none (it : NativeItem) (rest : NativeMenu) (cmd : Nat)
    (hf : findItemIn it cmd = none) :
    findItem (NativeMenu.cons it rest) cmd = findItem rest cmd := by
  simp [findItem, hf]

theorem findItem_setState_nil (cmd : Nat) (b : Bool) :
    findItem (setState NativeMenu.nil cmd b) cmd
      = (findItem NativeMenu.nil cmd).map (fun r => applyState r b) := by
  simp [setState, findItem]

mutual

theorem findItemIn_setStateItem (it : NativeItem) (cmd : Nat) (b : Bool) :
    findItemIn (setStateItem it cmd b) cmd
      = (findItemIn it cmd).map (fun r => applyState r b) := by
  cases it with
  | separator => exact findItemIn_sep_map cmd b
  | entry w t d c p sub =>
    rcases eq_or_ne w cmd with hw | hw
    · exact findItemIn_entry_eq_map w t d c p sub cmd b hw
    · cases sub with
      | none => exact findItemIn_entry_ne_none_map w t d c p cmd b hw
      | some s =>
        rw [setStateItem_entry_ne_some w t d c p s cmd b hw,
          findItemIn_entry_ne_some w t d c p (setState s cmd b) cmd hw,
          findItemIn_entry_ne_some w t d c p s cmd hw]
        exact findItem_setState s cmd b

theorem findItem_setState (nm : NativeMenu) (cmd : Nat) (b : Bool) :
    findItem (setState nm cmd b) cmd
      = (findItem nm cmd).map (fun r => applyState r b) := by
  cases nm with
  | nil => exact findItem_setState_nil cmd b
  | cons it rest =>
    cases hf : findItemIn it cmd with
    | some r =>
      have hmap := findItemIn_setStateItem it cmd b
      rw [hf] at hmap
      rw [setState_cons_found it rest cmd b r hf,
        findItem_cons_found (setStateItem it cmd b) rest cmd (applyState r b) hmap,
        findItem_cons_found it rest cmd r hf]
      rfl
    | none =>
      rw [setState_cons_none it rest cmd b hf,
        findItem_cons_none it (setState rest cmd b) cmd hf,
        findItem_cons_none it rest cmd hf]
      exact findItem_setState rest cmd b

end

/-- C1: the claim states that `_tray_menu` assigns command identifiers
depth-first in pre-order, strictly increasing in that order, starting at
base 1000.  Counterexample: for the tree with one item `A` carrying a
one-item submenu `B`, the source assigns the submenu first
(`item.hSubMenu = _tray_menu(m->submenu, id)` runs before
`item.wID = *id`), so `B` gets 1000 and its parent `A` gets 1001: the
pre-order identifier sequence is `[1001, 1000]`, which is not strictly
increasing and does not start at 1000. -/
theorem C1_counterexample_preorder_ids :
    preIds (_tray_menu (MenuList.cons (MenuNode.node ['A'] false false false false
        (some (MenuList.cons (MenuNode.node ['B'] false false false false none)
          MenuList.nil))) MenuList.nil) [] 0 ID_TRAY_FIRST).1 = [1001, 1000] ∧
    ¬ List.Pairwise (· < ·)
      (preIds (_tray_menu (MenuList.cons (MenuNode.node ['A'] false false false false
        (some (MenuList.cons (MenuNode.node ['B'] false false false false none)
          MenuList.nil))) MenuList.nil) [] 0 ID_TRAY_FIRST).1) := by
  constructor
  · rfl
  · intro hp
    have e : preIds (_tray_menu (MenuList.cons (MenuNode.node ['A'] false false false false
        (some (MenuList.cons (MenuNode.node ['B'] false false false false none)
          MenuList.nil))) MenuList.nil) [] 0 ID_TRAY_FIRST).1 = [1001, 1000] := rfl
    rw [e] at hp
    rcases List.pairwise_cons.mp hp with ⟨hlt, -⟩
    exact absurd (hlt 1000 (List.mem_singleton.mpr rfl)) (by omega)

/-- C1 (amended): a single call to the menu build operation with the running
id counter starting at the fixed base 1000 assigns command identifiers
depth-first with each submenu numbered before its parent item (post-order);
in that assignment order the identifiers are strictly increasing, each is
unique within the one build, every identifier lies in the dense slot range
`[1000, 1000 + slot count)` (separators consume a slot too), and the counter
finishes at `1000 + slot count`; rebuilding the identical tree is a pure
function application, hence deterministic. -/
theorem C1_build_ids_postorder (f : MenuList) :
    List.Pairwise (· < ·) (postIds (_tray_menu f [] 0 ID_TRAY_FIRST).1) ∧
    (postIds (_tray_menu f [] 0 ID_TRAY_FIRST).1).Nodup ∧
    (∀ w ∈ postIds (_tray_menu f [] 0 ID_TRAY_FIRST).1,
      ID_TRAY_FIRST ≤ w ∧ w < ID_TRAY_FIRST + forestCount f) ∧
    (_tray_menu f [] 0 ID_TRAY_FIRST).2 = ID_TRAY_FIRST + forestCount f :=
  ⟨(tray_menu_ids f [] 0 ID_TRAY_FIRST).1, tray_menu_ids_nodup f,
   (tray_menu_ids f [] 0 ID_TRAY_FIRST).2, tray_menu_counter f [] 0 ID_TRAY_FIRST⟩

/-- Witness for C1: on the two-node tree `[Quit, Toggle]` the identifier
1000 is assigned and lies in the slot range. -/
theorem C1_build_ids_postorder_witness :
    ID_TRAY_FIRST ≤ 1000 ∧
    1000 < ID_TRAY_FIRST + forestCount (MenuList.cons
      (MenuNode.node ['Q'] false false false true none)
      (MenuList.cons (MenuNode.node ['T'] false false true true none) MenuList.nil)) :=
  (C1_build_ids_postorder (MenuList.cons
      (MenuNode.node ['Q'] false false false true none)
      (MenuList.cons (MenuNode.node ['T'] false false true true none)
        MenuList.nil))).2.2.1 1000 (by decide)

/-- C2: for a menu node with the checkbox flag set, dispatching its command
event flips the `checked` field before invoking its callback (the callback
argument reflects the flipped value), dispatching the same command event
twice returns `checked` to its original value, and a node without the
checkbox flag has its tree state unchanged by dispatch (its callback
observes it unmodified). -/
theorem C2_checkbox_toggle (tree : MenuList) (nm : NativeMenu) (wparam w : Nat)
    (t : Str) (d c : Bool) (p : List Nat) (sub : Option NativeMenu) (n : MenuNode)
    (hw : wparam < 65536)
    (hfind : findItem nm wparam = some (NativeItem.entry w t d c p sub))
    (hget : getNodeAt tree p = some n) :
    (n.checkbox = true →
      getNodeAt (wm_command tree nm wparam).tree p
          = some (n.setChecked (!n.checked)) ∧
      (wm_command tree nm wparam).cbArg
          = (if n.hasCb then some (p, n.setChecked (!n.checked)) else none) ∧
      getNodeAt (wm_command (wm_command tree nm wparam).tree
          (wm_command tree nm wparam).nm wparam).tree p = some n) ∧
    (n.checkbox = false →
      (wm_command tree nm wparam).tree = tree ∧
      (wm_command tree nm wparam).nm = nm ∧
      (wm_command tree nm wparam).cbArg = (if n.hasCb then some (p, n) else none)) := by
  have hH : HIWORD wparam = 0 := by
    simp [HIWORD, Nat.div_eq_of_lt hw]
  have hL : LOWORD wparam = wparam := Nat.mod_eq_of_lt hw
  constructor
  · intro hcb
    have e1 : wm_command tree nm wparam =
        { tree := setNodeAt tree p (n.setChecked (!n.checked)),
          nm := setState nm wparam (!n.checked),
          cbArg := if n.hasCb then some (p, n.setChecked (!n.checked)) else none } := by
      simp [wm_command, hH, hL, hfind, NativeItem.itemData, hget, hcb]
    have hget1 : getNodeAt (setNodeAt tree p (n.setChecked (!n.checked))) p
        = some (n.setChecked (!n.checked)) :=
      getNodeAt_setNodeAt tree p (n.setChecked (!n.checked)) n hget
    refine ⟨by rw [e1]; exact hget1, by rw [e1], ?_⟩
    rw [e1]
    have hfind2 : findItem (setState nm wparam (!n.checked)) wparam
        = some (NativeItem.entry w t false (!n.checked) p sub) := by
      rw [findItem_setState, hfind]
      rfl
    have e2 : wm_command (setNodeAt tree p (n.setChecked (!n.checked)))
        (setState nm wparam (!n.checked)) wparam =
        { tree := setNodeAt (setNodeAt tree p (n.setChecked (!n.checked))) p
            (n.setChecked n.checked),
          nm := setState (setState nm wparam (!n.checked)) wparam n.checked,
          cbArg := if n.hasCb then some (p, n.setChecked n.checked) else none } := by
      simp [wm_command, hH, hL, hfind2, NativeItem.itemData, hget1, hcb,
        MenuNode.setChecked_setChecked]
    rw [e2]
    rw [show n.setChecked n.checked = n from MenuNode.setChecked_self n]
    exact getNodeAt_setNodeAt _ p n (n.setChecked (!n.checked)) hget1
  · intro hcb
    have e1 : wm_command tree nm wparam =
        { tree := tree, nm := nm,
          cbArg := if n.hasCb then some (p, n) else none } := by
      simp [wm_command, hH, hL, hfind, NativeItem.itemData, hget, hcb]
    exact ⟨by rw [e1], by rw [e1], by rw [e1]⟩

/-- Witness for C2: a one-item menu with a checkbox node `T`; dispatching
command 1000 flips `checked` to true, the callback observes the flipped
node, a second dispatch restores the original node. -/
theorem C2_checkbox_toggle_witness :
    (getNodeAt (wm_command
        (MenuList.cons (MenuNode.node ['T'] false false true true none) MenuList.nil)
        (NativeMenu.cons (NativeItem.entry 1000 ['T'] false false [0] none) NativeMenu.nil)
        1000).tree [0]
      = some ((MenuNode.node ['T'] false false true true none).setChecked true)) ∧
    (wm_command
        (MenuList.cons (MenuNode.node ['T'] false false true true none) MenuList.nil)
        (NativeMenu.cons (NativeItem.entry 1000 ['T'] false false [0] none) NativeMenu.nil)
        1000).cbArg
      = some ([0], (MenuNode.node ['T'] false false true true none).setChecked true) := by
  have h := C2_checkbox_toggle
    (MenuList.cons (MenuNode.node ['T'] false false true true none) MenuList.nil)
    (NativeMenu.cons (NativeItem.entry 1000 ['T'] false false [0] none) NativeMenu.nil)
    1000 1000 ['T'] false false [0] none
    (MenuNode.node ['T'] false false true true none)
    (by omega) rfl rfl
  rcases h.1 rfl with ⟨h1, h2, h3⟩
  exact ⟨h1, by rw [h2]; rfl⟩

/-- C7: a menu node whose text is exactly "-" is built as a separator item
that carries no back-reference (`dwItemData` stays 0); it consumes exactly
one id-counter slot; and command-event dispatch on an item resolved as a
separator performs no action at all (no tree change, no menu change, no
callback), because of the `item_info.dwItemData != 0` guard. -/
theorem C7_separator_semantics (m : MenuNode) (hm : m.text = sepText) :
    (∀ f pp i id,
      (_tray_menu (MenuList.cons m f) pp i id).1
        = NativeMenu.cons NativeItem.separator (_tray_menu f pp (i + 1) (id + 1)).1 ∧
      (_tray_menu (MenuList.cons m f) pp i id).2 = id + 1 + forestCount f) ∧
    NativeItem.separator.itemData = none ∧
    (∀ tree nm wparam, findItem nm (LOWORD wparam) = some NativeItem.separator →
      wm_command tree nm wparam = { tree := tree, nm := nm, cbArg := none }) := by
  refine ⟨?_, rfl, ?_⟩
  · intro f pp i id
    cases m with
    | node t d c cb h sub =>
      have ht : t = sepText := hm
      subst ht
      have h1 : (_tray_menu (MenuList.cons (MenuNode.node sepText d c cb h sub) f) pp i id).1
          = NativeMenu.cons NativeItem.separator (_tray_menu f pp (i + 1) (id + 1)).1 := by
        simp [_tray_menu, _tray_menu_item]
      have h2 : (_tray_menu (MenuList.cons (MenuNode.node sepText d c cb h sub) f) pp i id).2
          = id + 1 + forestCount f := by
        rw [tray_menu_counter (MenuList.cons (MenuNode.node sepText d c cb h sub) f) pp i id]
        simp [forestCount, nodeBodyCount]
        omega
      exact ⟨h1, h2⟩
  · intro tree nm wparam hsep
    by_cases hH : HIWORD wparam = 0
    · simp [wm_command, hH, hsep, NativeItem.itemData]
    · simp [wm_command, hH]

/-- Witness for C7: the concrete tree `[Quit, "-"]`; its build yields a
separator consuming slot 1001, and dispatch of command 0 (the only
identifier a separator can match) on a menu whose first item is a
separator is a no-op. -/
theorem C7_separator_semantics_witness :
    ((_tray_menu (MenuList.cons (MenuNode.node ['-'] false false false false none)
        MenuList.nil) [] 0 1000).1
      = NativeMenu.cons NativeItem.separator (_tray_menu MenuList.nil [] 1 1001).1 ∧
     (_tray_menu (MenuList.cons (MenuNode.node ['-'] false false false false none)
        MenuList.nil) [] 0 1000).2 = 1000 + 1 + forestCount MenuList.nil) ∧
    wm_command MenuList.nil
        (NativeMenu.cons NativeItem.separator NativeMenu.nil) 0
      = { tree := MenuList.nil,
          nm := NativeMenu.cons NativeItem.separator NativeMenu.nil, cbArg := none } := by
  have h := C7_separator_semantics (MenuNode.node ['-'] false false false false none) rfl
  exact ⟨h.1 MenuList.nil [] 0 1000,
    h.2.2 MenuList.nil (NativeMenu.cons NativeItem.separator NativeMenu.nil) 0 rfl⟩

/-! ### Icon cache -/

/-- Handles produced by the three independent decode calls of
`_create_icon_info` (two `ExtractIconExA` calls and one `LoadImageA`);
`none` models a failed decode of that representation. -/
structure IconHandles where
  icon : Option Nat
  large_icon : Option Nat
  notification_icon : Option Nat

/-- One `struct icon_info` cache entry: owned path copy plus the three
resolved handles. -/
structure IconInfo where
  path : Str
  icon : Option Nat
  large_icon : Option Nat
  notification_icon : Option Nat
deriving DecidableEq

/-- The `enum IconType`. -/
inductive IconType : Type where
| regular : IconType
| large : IconType
| notification : IconType
deriving DecidableEq

/-- Function `_create_icon_info(path)` (source lines 226-237): decodes the three
representations in separate calls through the OS decode oracle and stores
an owned copy of the path. -/
def _create_icon_info (decode : Str → IconHandles) (path : Str) : IconInfo :=
  { path := path, icon := (decode path).icon, large_icon := (decode path).large_icon,
    notification_icon := (decode path).notification_icon }

/-- Function `_init_icon_cache(paths, count)` (source lines 244-251): fresh cache
with one entry per given path, in order, with no deduplication. -/
def _init_icon_cache (decode : Str → IconHandles) (paths : List Str) : List IconInfo :=
  paths.map (_create_icon_info decode)

/-- Function `_fetch_cached_icon(record, type)` (source lines 275-284). -/
def _fetch_cached_icon (r : IconInfo) : IconType → Option Nat
| IconType.regular => r.icon
| IconType.large => r.large_icon
| IconType.notification => r.notification_icon

/-- Result of `_fetch_icon`: the returned handle, the cache afterwards, and
whether a new decode (`_create_icon_info`) was performed. -/
structure FetchResult where
  handle : Option Nat
  cache : List IconInfo
  decoded : Bool
deriving DecidableEq

/-- Function `_fetch_icon(path, type)` (source lines 292-306): linear scan for the
first entry whose path is an exact (case-sensitive `strcmp`) match; on a
miss, the cache grows by one freshly decoded entry appended at the end. -/
def _fetch_icon (decode : Str → IconHandles) (cache : List IconInfo)
    (path : Str) (ty : IconType) : FetchResult :=
  match cache.find? (fun r => r.path == path) with
  | some r => { handle := _fetch_cached_icon r ty, cache := cache, decoded := false }
  | none =>
    let r := _create_icon_info decode path
    { handle := _fetch_cached_icon r ty, cache := cache ++ [r], decoded := true }

/-- Repeatedly resolve a list of paths against a cache
(`_fetch_icon` once per path, threading the cache). -/
def resolveAll (decode : Str → IconHandles) (ty : IconType)
    (cache : List IconInfo) (paths : List Str) : List IconInfo :=
  paths.foldl (fun c p => (_fetch_icon decode c p ty).cache) cache

theorem init_icon_cache_paths (decode : Str → IconHandles) (paths : List Str) :
    (_init_icon_cache decode paths).map IconInfo.path = paths := by
  induction paths with
  | nil => rfl
  | cons p ps ih => simp [_init_icon_cache, _create_icon_info] at ih ⊢; exact ih

theorem fetch_icon_hit (decode : Str → IconHandles) (cache : List IconInfo)
    (path : Str) (ty : IconType) (hmem : path ∈ cache.map IconInfo.path) :
    (_fetch_icon decode cache path ty).decoded = false ∧
    (_fetch_icon decode cache path ty).cache = cache ∧
    ∃ r ∈ cache, r.path = path ∧
      (_fetch_icon decode cache path ty).handle = _fetch_cached_icon r ty := by
  have hex : ∃ r, cache.find? (fun r => r.path == path) = some r := by
    rw [← Option.isSome_iff_exists]
    rw [List.find?_isSome]
    rcases List.mem_map.mp hmem with ⟨r, hr, hp⟩
    exact ⟨r, hr, by simp [hp]⟩
  rcases hex with ⟨r, hfind⟩
  have hrmem := List.mem_of_find?_eq_some hfind
  have hrpath : r.path = path := by
    have := List.find?_some hfind
    simpa using this
  refine ⟨?_, ?_, r, hrmem, hrpath, ?_⟩ <;> simp [_fetch_icon, hfind]

theorem fetch_icon_miss (decode : Str → IconHandles) (cache : List IconInfo)
    (path : Str) (ty : IconType) (hmem : path ∉ cache.map IconInfo.path) :
    (_fetch_icon decode cache path ty).decoded = true ∧
    (_fetch_icon decode cache path ty).cache
      = cache ++ [_create_icon_info decode path] := by
  have hfind : cache.find? (fun r => r.path == path) = none := by
    rw [List.find?_eq_none]
    intro r hr
    simp only [beq_iff_eq]
    intro hp
    exact hmem (List.mem_map.mpr ⟨r, hr, hp⟩)
  constructor <;> simp [_fetch_icon, hfind]

theorem fetch_icon_nodup (decode : Str → IconHandles) (cache : List IconInfo)
    (path : Str) (ty : IconType)
    (hnd : (cache.map IconInfo.path).Nodup) :
    ((_fetch_icon decode cache path ty).cache.map IconInfo.path).Nodup := by
  by_cases hmem : path ∈ cache.map IconInfo.path
  · rw [(fetch_icon_hit decode cache path ty hmem).2.1]
    exact hnd
  · rw [(fetch_icon_miss decode cache path ty hmem).2]
    simp only [List.map_append, List.map_cons, List.map_nil]
    rw [List.nodup_append]
    refine ⟨hnd, List.nodup_singleton _, ?_⟩
    intro a ha hb
    simp only [List.mem_singleton, _create_icon_info] at hb
    exact hmem (hb ▸ ha)

theorem resolveAll_paths (decode : Str → IconHandles) (ty : IconType) :
    ∀ (paths : List Str) (cache : List IconInfo),
      paths.Nodup → (∀ q ∈ paths, q ∉ cache.map IconInfo.path) →
      (resolveAll decode ty cache paths).map IconInfo.path
        = cache.map IconInfo.path ++ paths := by
  intro paths
  induction paths with
  | nil => intro cache _ _; simp [resolveAll]
  | cons p ps ih =>
    intro cache hnd hdisj
    have hmem : p ∉ cache.map IconInfo.path := hdisj p (by simp)
    have hstep := (fetch_icon_miss decode cache p ty hmem).2
    have hnext : ∀ q ∈ ps, q ∉ ((_fetch_icon decode cache p ty).cache.map IconInfo.path) := by
      intro q hq
      rw [hstep]
      simp only [List.map_append, List.map_cons, List.map_nil, List.mem_append,
        List.mem_singleton, _create_icon_info]
      rintro (hin | hqp)
      · exact hdisj q (List.mem_cons_of_mem p hq) hin
      · exact (List.nodup_cons.mp hnd).1 (hqp ▸ hq)
    have := ih (_fetch_icon decode cache p ty).cache (List.nodup_cons.mp hnd).2 hnext
    calc (resolveAll decode ty cache (p :: ps)).map IconInfo.path
        = (resolveAll decode ty (_fetch_icon decode cache p ty).cache ps).map IconInfo.path := by
          simp [resolveAll]
      _ = (_fetch_icon decode cache p ty).cache.map IconInfo.path ++ ps := this
      _ = cache.map IconInfo.path ++ p :: ps := by
          rw [hstep]
          simp [_create_icon_info]

/-- C3 counterexample: the claim asserts at most one cache entry per
distinct path after any sequence of initialization and resolve operations,
but `_init_icon_cache` performs no deduplication: initializing with the
path list ["a", "a"] yields two entries whose path is "a". -/
theorem C3_counterexample_duplicate_init :
    ((_init_icon_cache (fun _ => ⟨none, none, none⟩) [['a'], ['a']]).map IconInfo.path
      = [['a'], ['a']]) ∧
    ¬ ((_init_icon_cache (fun _ => ⟨none, none, none⟩) [['a'], ['a']]).map
        IconInfo.path).Nodup := by
  exact ⟨rfl, by decide⟩

/-- C3 (amended): provided cache initialization is given pairwise-distinct
paths, the cache holds at most one entry per distinct path (case-sensitive
exact match) after any sequence of initialization and resolve operations:
initialization stores exactly the given paths, a resolve preserves
distinctness, resolving a path already present performs no new decode and
returns the handle stored in the first matching entry, and resolving N
distinct paths starting from an empty cache produces exactly N entries
whose paths are those N paths. -/
theorem C3_icon_cache_unique (decode : Str → IconHandles) :
    (∀ paths : List Str, (_init_icon_cache decode paths).map IconInfo.path = paths) ∧
    (∀ (cache : List IconInfo) (path : Str) (ty : IconType),
      (cache.map IconInfo.path).Nodup →
      ((_fetch_icon decode cache path ty).cache.map IconInfo.path).Nodup) ∧
    (∀ (cache : List IconInfo) (path : Str) (ty : IconType),
      path ∈ cache.map IconInfo.path →
      (_fetch_icon decode cache path ty).decoded = false ∧
      (_fetch_icon decode cache path ty).cache = cache ∧
      ∃ r ∈ cache, r.path = path ∧
        (_fetch_icon decode cache path ty).handle = _fetch_cached_icon r ty) ∧
    (∀ (paths : List Str) (ty : IconType), paths.Nodup →
      (resolveAll decode ty [] paths).map IconInfo.path = paths) :=
  ⟨init_icon_cache_paths decode,
   fun cache path ty => fetch_icon_nodup decode cache path ty,
   fun cache path ty => fetch_icon_hit decode cache path ty,
   fun paths ty hnd => by
     simpa using resolveAll_paths decode ty paths [] hnd (by simp)⟩

/-- Witness for C3: resolving the two distinct paths "a", "b" from an empty
cache yields exactly the entries for "a" and "b"; resolving "a" against a
cache already holding it performs no decode and leaves the cache unchanged. -/
theorem C3_icon_cache_unique_witness :
    ((resolveAll (fun _ => ⟨some 7, none, none⟩) IconType.regular []
        [['a'], ['b']]).map IconInfo.path = [['a'], ['b']]) ∧
    ((_fetch_icon (fun _ => ⟨some 7, none, none⟩)
        [_create_icon_info (fun _ => ⟨some 7, none, none⟩) ['a']] ['a']
        IconType.regular).decoded = false) := by
  have h := C3_icon_cache_unique (fun _ => ⟨some 7, none, none⟩)
  refine ⟨h.2.2.2 [['a'], ['b']] IconType.regular (by decide), ?_⟩
  exact (h.2.2.1 [_create_icon_info (fun _ => ⟨some 7, none, none⟩) ['a']] ['a']
    IconType.regular (by decide)).1

/-! ### Notify-icon state controller -/

/-- The `NIF_*` flag set of a `NOTIFYICONDATAA`, rebuilt from scratch on
every update (`NIF_MESSAGE`, `NIF_GUID`, `NIF_ICON`, `NIF_TIP`,
`NIF_SHOWTIP`, `NIF_INFO`). -/
structure NidFlags where
  message : Bool
  guid : Bool
  icon : Bool
  tip : Bool
  showtip : Bool
  info : Bool
deriving DecidableEq

/-- Flags `NIF_MESSAGE | NIF_GUID`: the base flag set. -/
def msgGuidFlags : NidFlags :=
  { message := true, guid := true, icon := false, tip := false,
    showtip := false, info := false }

/-- Capacity `sizeof(nid.szTip)`: 128 characters. -/
def SZTIP_CAP : Nat := 128

/-- Capacity `ARRAYSIZE(nid.szInfo)`: 256 characters. -/
def SZINFO_CAP : Nat := 256

/-- Capacity `ARRAYSIZE(nid.szInfoTitle)`: 64 characters. -/
def SZINFOTITLE_CAP : Nat := 64

/-- The process-wide mutable `NOTIFYICONDATAA` record `nid`.
`infoUserLargeIcon` models `dwInfoFlags = NIIF_USER | NIIF_LARGE_ICON`
(versus `NIIF_NONE`). -/
structure Nid where
  szTip : Str
  szInfo : Str
  szInfoTitle : Str
  hIcon : Option Nat
  hBalloonIcon : Option Nat
  uFlags : NidFlags
  uVersion : Nat
  infoUserLargeIcon : Bool
deriving DecidableEq

/-- The `nid` record right after the `memset` in `tray_init`. -/
def Nid.fresh : Nid :=
  { szTip := [], szInfo := [], szInfoTitle := [], hIcon := none,
    hBalloonIcon := none,
    uFlags := { message := false, guid := false, icon := false, tip := false,
                showtip := false, info := false },
    uVersion := 0, infoUserLargeIcon := false }

/-- The `struct tray`: the caller-owned description. String fields that may be
NULL are `Option Str`; `menu` is the root sibling array (a NULL menu
pointer behaves exactly like an empty array in `_tray_menu`). -/
structure TrayDesc where
  icon : Str
  tooltip : Option Str
  notification_icon : Option Str
  notification_text : Option Str
  notification_title : Option Str
  notification_cb : Bool
  menu : MenuList
  allIconPaths : List Str

/-- The C test `s && s[0]` / `s != 0 && strlen(s) > 0`: the pointer is
non-null and the string non-empty. -/
def hasStr : Option Str → Bool
| none => false
| some s => !s.isEmpty

/-- Function `safe_copy_sz(dst, dstcch, src)` (source lines 98-102): no-op on zero
capacity; clears the buffer when `src` is NULL; otherwise `StringCchCopyA`
stores at most `dstcch - 1` characters and always NUL-terminates.
Returns the buffer contents after the call. -/
def safe_copy_sz (dst : Str) (dstcch : Nat) (src : Option Str) : Str :=
  if dstcch = 0 then dst
  else
    match src with
    | none => []
    | some s => s.take (dstcch - 1)

/-- Outcomes of the OS calls made by init/update/dispatch, supplied as
input: the icon decoders, `LoadImageA` for the notification icon,
success of class/window/shell registration and of the version opt-in, and
the command identifier returned by `TrackPopupMenu`. -/
structure OsOracle where
  decode : Str → IconHandles
  loadImage : Str → Option Nat
  registerClassOk : Bool
  createWindowOk : Bool
  shellAddOk : Bool
  setVersionOk : Bool
  trackCmd : Nat

/-- Observable actions, recorded in program order. -/
inductive Event : Type where
| nimAdd : Event
| nimSetVersion : Event
| nimModify : Event
| nimDelete : Event
| menuInstalled (m : NativeMenu) : Event
| menuDestroyed (m : NativeMenu) : Event
| callbackInvoked (path : List Nat) (n : MenuNode) : Event
| notificationCbInvoked : Event

/-- Is this event an invocation of a caller-supplied callback
(menu-item callback or notification-click callback)? -/
def Event.isUserCallback : Event → Bool
| .callbackInvoked _ _ => true
| .notificationCbInvoked => true
| _ => false

def Event.isNimAdd : Event → Bool
| .nimAdd => true
| _ => false

def Event.isNimSetVersion : Event → Bool
| .nimSetVersion => true
| _ => false

def Event.isNimModify : Event → Bool
| .nimModify => true
| _ => false

/-- The process-wide mutable tray state: `g_tray` (last description),
`hmenu` (active native menu), `nid`, `notification_cb`, the icon cache, and
which OS registrations currently exist. -/
structure TrayState where
  g_tray : Option TrayDesc
  hmenu : Option NativeMenu
  nid : Nid
  notification_cb : Bool
  iconCache : List IconInfo
  classRegistered : Bool
  windowCreated : Bool
  shellIconAdded : Bool

/-- The `nid` field/flag recomputation of `tray_update` (source lines
393-455), given the icon handle resolved through the cache: flags are
rebuilt from `NIF_MESSAGE | NIF_GUID`; the icon flag is asserted only when
an icon resolved; the tooltip is copied with truncation (`strncpy` into
`szTip[128]` plus forced NUL) or the buffer is cleared; the notification
payload is populated (with `safe_copy_sz` truncation and the
balloon-icon fallback chain) only when a title or text is present,
otherwise both info buffers are cleared; the whole flag set is then
assigned to `nid.uFlags`. -/
def updateNid (os : OsOracle) (t : TrayDesc) (iconRes : Option Nat)
    (prev : Nid) : Nid :=
  let n1 : Nid :=
    match iconRes with
    | some h => { prev with hIcon := some h }
    | none => prev
  let f1 : NidFlags := { msgGuidFlags with icon := iconRes.isSome }
  let tipOn := hasStr t.tooltip
  let n2 : Nid :=
    if tipOn then { n1 with szTip := (t.tooltip.getD []).take (SZTIP_CAP - 1) }
    else { n1 with szTip := [] }
  let f2 : NidFlags := if tipOn then { f1 with tip := true, showtip := true } else f1
  let hasTitle := hasStr t.notification_title
  let hasText := hasStr t.notification_text
  if hasTitle || hasText then
    let n3 : Nid := { n2 with
      szInfoTitle := safe_copy_sz n2.szInfoTitle SZINFOTITLE_CAP
        (if hasTitle then t.notification_title else some []),
      szInfo := safe_copy_sz n2.szInfo SZINFO_CAP
        (if hasText then t.notification_text else some []),
      infoUserLargeIcon := false }
    let hLoad : Option Nat :=
      if hasStr t.notification_icon then os.loadImage (t.notification_icon.getD [])
      else none
    let hLarge : Option Nat :=
      match hLoad with
      | some h => some h
      | none => n3.hIcon
    match hLarge with
    | some h => { n3 with hBalloonIcon := some h, infoUserLargeIcon := true,
                          uFlags := { f2 with info := true } }
    | none => { n3 with uFlags := { f2 with info := true } }
  else
    { n2 with szInfoTitle := [], szInfo := [], infoUserLargeIcon := false,
              uFlags := f2 }

/-- Function `tray_update(tray)` (source lines 386-463): records the description in
`g_tray`, builds a fresh menu and installs it as the active handle,
resolves the tray icon through the cache, recomputes the complete
notify-icon record, applies it with `NIM_MODIFY`, and destroys the
previously installed menu handle only at the end. -/
def tray_update (os : OsOracle) (st : TrayState) (t : TrayDesc) :
    TrayState × List Event :=
  let prevmenu := st.hmenu
  let newmenu := (_tray_menu t.menu [] 0 ID_TRAY_FIRST).1
  let fr := _fetch_icon os.decode st.iconCache t.icon IconType.regular
  let nid' := updateNid os t fr.handle st.nid
  ({ st with g_tray := some t, hmenu := some newmenu, iconCache := fr.cache,
             nid := nid', notification_cb := t.notification_cb },
   [Event.menuInstalled newmenu, Event.nimModify] ++
     (match prevmenu with
      | some pm => [Event.menuDestroyed pm]
      | none => []))

/-- Function `tray_init(tray)` (source lines 308-357): pre-warms the icon cache from
the description's path set, then registers the window class, creates the
hidden window, resets `nid` and registers the notify icon (`NIM_ADD` with
`NIF_MESSAGE | NIF_GUID`), opts into `NOTIFYICON_VERSION_4`
(`NIM_SETVERSION` failure is only logged), and runs the initial update.
On a failure the resources registered later in the sequence were never
created and the ones registered earlier are torn back down
(`DestroyWindow`, `UnregisterClassA`) before returning -1; the icon cache
is not torn down on any path. -/
def tray_init (os : OsOracle) (st : TrayState) (t : TrayDesc) :
    Int × TrayState :=
  let st0 := { st with iconCache := _init_icon_cache os.decode t.allIconPaths }
  if os.registerClassOk then
    if os.createWindowOk then
      let st2 := { st0 with classRegistered := true, windowCreated := true,
                            nid := { Nid.fresh with uFlags := msgGuidFlags } }
      if os.shellAddOk then
        let st3 := { st2 with shellIconAdded := true,
                              nid := { st2.nid with uVersion := 4 } }
        (0, (tray_update os st3 t).1)
      else
        (-1, { st2 with windowCreated := false, classRegistered := false })
    else
      (-1, st0)
  else
    (-1, st0)

/-- One blocking `GetMessageA` outcome: an error return (-1), a `WM_QUIT`
(return 0), or a normal message (> 0). -/
inductive GetMessageOutcome : Type where
| err : GetMessageOutcome
| quit : GetMessageOutcome
| message (m : Nat) : GetMessageOutcome
deriving DecidableEq

/-- One queued message as seen by the non-blocking drain. -/
inductive QMsg : Type where
| quit : QMsg
| other (m : Nat) : QMsg
deriving DecidableEq

/-- The blocking branch of `tray_loop` (source lines 361-372): one
`GetMessageA`; `r <= 0` (error or `WM_QUIT`) returns -1, otherwise the
message is translated, dispatched, and 0 is returned. -/
def tray_loop_blocking : GetMessageOutcome → Int
| GetMessageOutcome.err => -1
| GetMessageOutcome.quit => -1
| GetMessageOutcome.message _ => 0

/-- The non-blocking branch of `tray_loop` (source lines 373-383): drain
all queued messages with `PeekMessageA(PM_REMOVE)`; removing a `WM_QUIT`
returns -1 immediately (remaining queue kept), an empty queue returns 0.
Returns the result and the messages still queued. -/
def tray_loop_drain : List QMsg → Int × List QMsg
| [] => (0, [])
| QMsg.quit :: rest => (-1, rest)
| QMsg.other _ :: rest => tray_loop_drain rest

/-- Function `tray_loop(blocking)` (source lines 359-384). -/
def tray_loop (blocking : Bool) (g : GetMessageOutcome) (q : List QMsg) : Int :=
  if blocking then tray_loop_blocking g else (tray_loop_drain q).1

/-- Window messages as classified by `_tray_wnd_proc` (the
`wm_taskbarcreated` registered broadcast is its own case). -/
inductive WndMsg : Type where
| close : WndMsg
| destroy : WndMsg
| command (wparam : Nat) : WndMsg
| trayCallback (lparamLow : Nat) : WndMsg
| taskbarCreated : WndMsg
| other (m : Nat) : WndMsg

def WM_LBUTTONUP : Nat := 514
def WM_RBUTTONUP : Nat := 517
def WM_CONTEXTMENU : Nat := 123
def NIN_BALLOONUSERCLICK : Nat := 1026

/-- Apply one command dispatch with the given `wparam` to the process
state: the back-references of the live menu point into `g_tray`'s tree,
and the mutated tree and native menu are written back; a callback
invocation is recorded as an event. -/
def dispatchCommand (st : TrayState) (wparam : Nat) : TrayState × List Event :=
  match st.hmenu, st.g_tray with
  | some nm, some t =>
    let r := wm_command t.menu nm wparam
    ({ st with hmenu := some r.nm, g_tray := some { t with menu := r.tree } },
     match r.cbArg with
     | some pn => [Event.callbackInvoked pn.1 pn.2]
     | none => [])
  | _, _ => (st, [])

/-- Function `_tray_wnd_proc` (source lines 106-187): classify one incoming message
and drive the corresponding action.  `WM_CLOSE` destroys the window,
`WM_DESTROY` posts quit (neither mutates tray state), `WM_COMMAND` runs the
command dispatch, the tray-callback message tracks the popup menu and
forwards a chosen command through the same dispatch or fires the
notification callback on a balloon click, and the `TaskbarCreated`
broadcast re-adds the notify icon with `NIF_MESSAGE | NIF_GUID`, re-asserts
`NOTIFYICON_VERSION_4`, and — when a description is on record — rebuilds
the menu, destroys the previous handle, and re-runs `tray_update`. -/
def _tray_wnd_proc (os : OsOracle) (st : TrayState) (msg : WndMsg) :
    TrayState × List Event :=
  match msg with
  | WndMsg.close => (st, [])
  | WndMsg.destroy => (st, [])
  | WndMsg.command wparam => dispatchCommand st wparam
  | WndMsg.trayCallback low =>
    if low = WM_LBUTTONUP ∨ low = WM_RBUTTONUP ∨ low = WM_CONTEXTMENU then
      let cmd := LOWORD os.trackCmd
      if cmd ≠ 0 then dispatchCommand st cmd else (st, [])
    else if low = NIN_BALLOONUSERCLICK then
      (st, if st.notification_cb then [Event.notificationCbInvoked] else [])
    else (st, [])
  | WndMsg.taskbarCreated =>
    let st1 := { st with nid := { st.nid with uFlags := msgGuidFlags, uVersion := 4 } }
    match st1.g_tray with
    | some t =>
      let prevmenu := st1.hmenu
      let newmenu := (_tray_menu t.menu [] 0 ID_TRAY_FIRST).1
      let st2 := { st1 with hmenu := some newmenu }
      let r := tray_update os st2 t
      (r.1, [Event.nimAdd, Event.nimSetVersion, Event.menuInstalled newmenu] ++
        (match prevmenu with
         | some pm => [Event.menuDestroyed pm]
         | none => []) ++ r.2)
    | none => (st1, [Event.nimAdd, Event.nimSetVersion])
  | WndMsg.other _ => (st, [])

/-- Scans an event trace left to right: true iff every `menuDestroyed`
occurs only after a `menuInstalled` has been seen (the Boolean argument
carries whether an install has been seen so far). -/
def destroyedOnlyAfterInstall : List Event → Bool → Bool
| [], _ => true
| Event.menuInstalled _ :: rest, _ => destroyedOnlyAfterInstall rest true
| Event.menuDestroyed _ :: rest, seen => seen && destroyedOnlyAfterInstall rest seen
| _ :: rest, seen => destroyedOnlyAfterInstall rest seen

theorem tray_update_fst_g_tray (os : OsOracle) (st : TrayState) (t : TrayDesc) :
    (tray_update os st t).1.g_tray = some t := rfl

theorem tray_update_fst_hmenu (os : OsOracle) (st : TrayState) (t : TrayDesc) :
    (tray_update os st t).1.hmenu = some (_tray_menu t.menu [] 0 ID_TRAY_FIRST).1 := rfl

theorem tray_update_fst_nid (os : OsOracle) (st : TrayState) (t : TrayDesc) :
    (tray_update os st t).1.nid
      = updateNid os t
          (_fetch_icon os.decode st.iconCache t.icon IconType.regular).handle
          st.nid := rfl

theorem tray_update_snd (os : OsOracle) (st : TrayState) (t : TrayDesc) :
    (tray_update os st t).2
      = [Event.menuInstalled (_tray_menu t.menu [] 0 ID_TRAY_FIRST).1,
         Event.nimModify] ++
        (match st.hmenu with
         | some pm => [Event.menuDestroyed pm]
         | none => []) := rfl

theorem updateNid_uFlags (os : OsOracle) (t : TrayDesc) (iconRes : Option Nat)
    (prev : Nid) :
    (updateNid os t iconRes prev).uFlags
      = { message := true, guid := true, icon := iconRes.isSome,
          tip := hasStr t.tooltip, showtip := hasStr t.tooltip,
          info := hasStr t.notification_title || hasStr t.notification_text } := by
  unfold updateNid
  cases htip : hasStr t.tooltip <;>
    cases hinfo : (hasStr t.notification_title || hasStr t.notification_text) <;>
      cases iconRes <;>
        simp [htip, hinfo, msgGuidFlags] <;> split <;> simp

theorem updateNid_uVersion (os : OsOracle) (t : TrayDesc) (iconRes : Option Nat)
    (prev : Nid) :
    (updateNid os t iconRes prev).uVersion = prev.uVersion := by
  unfold updateNid
  cases htip : hasStr t.tooltip <;>
    cases hinfo : (hasStr t.notification_title || hasStr t.notification_text) <;>
      cases iconRes <;>
        simp [htip, hinfo] <;> split <;> simp

theorem updateNid_szTip (os : OsOracle) (t : TrayDesc) (iconRes : Option Nat)
    (prev : Nid) :
    (updateNid os t iconRes prev).szTip
      = if hasStr t.tooltip then (t.tooltip.getD []).take (SZTIP_CAP - 1)
        else [] := by
  unfold updateNid
  cases htip : hasStr t.tooltip <;>
    cases hinfo : (hasStr t.notification_title || hasStr t.notification_text) <;>
      cases iconRes <;>
        simp [htip, hinfo] <;> split <;> simp

theorem updateNid_szInfoTitle (os : OsOracle) (t : TrayDesc) (iconRes : Option Nat)
    (prev : Nid) :
    (updateNid os t iconRes prev).szInfoTitle
      = if (hasStr t.notification_title || hasStr t.notification_text)
        then safe_copy_sz prev.szInfoTitle SZINFOTITLE_CAP
          (if hasStr t.notification_title then t.notification_title else some [])
        else [] := by
  unfold updateNid
  cases htip : hasStr t.tooltip <;>
    cases hinfo : (hasStr t.notification_title || hasStr t.notification_text) <;>
      cases iconRes <;>
        simp [htip, hinfo] <;> split <;> simp

theorem updateNid_szInfo (os : OsOracle) (t : TrayDesc) (iconRes : Option Nat)
    (prev : Nid) :
    (updateNid os t iconRes prev).szInfo
      = if (hasStr t.notification_title || hasStr t.notification_text)
        then safe_copy_sz prev.szInfo SZINFO_CAP
          (if hasStr t.notification_text then t.notification_text else some [])
        else [] := by
  unfold updateNid
  cases htip : hasStr t.tooltip <;>
    cases hinfo : (hasStr t.notification_title || hasStr t.notification_text) <;>
      cases iconRes <;>
        simp [htip, hinfo] <;> split <;> simp

theorem safe_copy_sz_length (dst : Str) (c : Nat) (src : Option Str) (hc : c ≠ 0) :
    (safe_copy_sz dst c src).length ≤ c - 1 := by
  unfold safe_copy_sz
  rw [if_neg hc]
  cases src with
  | none => simp
  | some s => simp

theorem safe_copy_sz_of_some (dst : Str) (c : Nat) (s : Str) (hc : c ≠ 0) :
    ∃ r, s = safe_copy_sz dst c (some s) ++ r := by
  unfold safe_copy_sz
  rw [if_neg hc]
  exact ⟨s.drop (c - 1), (List.take_append_drop (c - 1) s).symm⟩

/-- If the C presence test `s && s[0]` fails, the string's contents (with
NULL read as empty) are empty. -/
theorem hasStr_false_getD (o : Option Str) (h : hasStr o = false) : o.getD [] = [] := by
  cases o with
  | none => rfl
  | some s =>
    cases s with
    | nil => rfl
    | cons a l => simp [hasStr] at h

/-- C10: `tray_update` copies the tooltip, notification title, and
notification text into the fixed-size `NOTIFYICONDATAA` buffers with
truncation: the stored copies always fit strictly within the 128-, 64-, and
256-character buffers (leaving room for the terminating NUL, which
`strncpy` plus forced NUL and `safe_copy_sz` always write), each stored
copy is a prefix of the given string, and the update is a total function —
it completes normally on every input, however long the strings are. -/
theorem C10_update_truncates_strings (os : OsOracle) (st : TrayState) (t : TrayDesc) :
    (tray_update os st t).1.nid.szTip.length < SZTIP_CAP ∧
    (tray_update os st t).1.nid.szInfoTitle.length < SZINFOTITLE_CAP ∧
    (tray_update os st t).1.nid.szInfo.length < SZINFO_CAP ∧
    (∃ r, t.tooltip.getD [] = (tray_update os st t).1.nid.szTip ++ r) ∧
    (∃ r, t.notification_title.getD []
      = (tray_update os st t).1.nid.szInfoTitle ++ r) ∧
    (∃ r, t.notification_text.getD []
      = (tray_update os st t).1.nid.szInfo ++ r) := by
  rw [tray_update_fst_nid os st t]
  rw [updateNid_szTip, updateNid_szInfoTitle, updateNid_szInfo]
  refine ⟨?_, ?_, ?_, ?_, ?_, ?_⟩
  · split
    · simp only [List.length_take, SZTIP_CAP]
      omega
    · decide
  · split
    · exact Nat.lt_of_le_of_lt
        (safe_copy_sz_length _ SZINFOTITLE_CAP _ (by decide)) (by decide)
    · decide
  · split
    · exact Nat.lt_of_le_of_lt
        (safe_copy_sz_length _ SZINFO_CAP _ (by decide)) (by decide)
    · decide
  · split
    · exact ⟨(t.tooltip.getD []).drop (SZTIP_CAP - 1),
        (List.take_append_drop (SZTIP_CAP - 1) (t.tooltip.getD [])).symm⟩
    · rename_i htip
      rw [hasStr_false_getD t.tooltip (by simpa using htip)]
      exact ⟨[], rfl⟩
  · split
    · by_cases ht : hasStr t.notification_title = true
      · rw [if_pos ht]
        cases hne : t.notification_title with
        | none => exact absurd ht (by simp [hasStr, hne])
        | some s =>
          simpa [Option.getD] using
            safe_copy_sz_of_some st.nid.szInfoTitle SZINFOTITLE_CAP s
              (by decide)
      · rw [if_neg ht]
        rw [hasStr_false_getD t.notification_title (by simpa using ht)]
        exact ⟨[], by simp [safe_copy_sz, SZINFOTITLE_CAP]⟩
    · rename_i hinfo
      have : hasStr t.notification_title = false := by
        rcases Bool.or_eq_false_iff.mp (by simpa using hinfo) with ⟨h1, h2⟩
        exact h1
      rw [hasStr_false_getD t.notification_title this]
      exact ⟨[], rfl⟩
  · split
    · by_cases ht : hasStr t.notification_text = true
      · rw [if_pos ht]
        cases hne : t.notification_text with
        | none => exact absurd ht (by simp [hasStr, hne])
        | some s =>
          simpa [Option.getD] using
            safe_copy_sz_of_some st.nid.szInfo SZINFO_CAP s (by decide)
      · rw [if_neg ht]
        rw [hasStr_false_getD t.notification_text (by simpa using ht)]
        exact ⟨[], by simp [safe_copy_sz, SZINFO_CAP]⟩
    · rename_i hinfo
      have : hasStr t.notification_text = false := by
        rcases Bool.or_eq_false_iff.mp (by simpa using hinfo) with ⟨h1, h2⟩
        exact h2
      rw [hasStr_false_getD t.notification_text this]
      exact ⟨[], rfl⟩

/-- A decode oracle on which every decode fails. -/
def noDecode : Str → IconHandles := fun _ => ⟨none, none, none⟩

/-- An oracle where every OS registration succeeds and every decode fails. -/
def okOracle : OsOracle :=
  { decode := noDecode, loadImage := fun _ => none, registerClassOk := true,
    createWindowOk := true, shellAddOk := true, setVersionOk := true,
    trackCmd := 0 }

/-- The fresh process state before `tray_init`. -/
def freshState : TrayState :=
  { g_tray := none, hmenu := none, nid := Nid.fresh, notification_cb := false,
    iconCache := [], classRegistered := false, windowCreated := false,
    shellIconAdded := false }

/-- A minimal description: icon path "a", empty menu, nothing else. -/
def plainDesc : TrayDesc :=
  { icon := ['a'], tooltip := none, notification_icon := none,
    notification_text := none, notification_title := none,
    notification_cb := false, menu := MenuList.nil, allIconPaths := [['a']] }

/-- Description `plainDesc` with tooltip "Hi". -/
def tooltipDesc : TrayDesc := { plainDesc with tooltip := some ['H', 'i'] }

/-- C4 counterexample: with window-class registration failing, `tray_init`
on a fresh state returns -1, but the icon cache populated at the start of
the attempt (one decoded entry for path "a") is not released before
returning — a resource created during the failed init attempt survives it,
so not every resource created during the attempt has been released. -/
theorem C4_counterexample_icon_cache_survives :
    (tray_init { okOracle with registerClassOk := false } freshState plainDesc).1
      = -1 ∧
    (tray_init { okOracle with registerClassOk := false } freshState
      plainDesc).2.iconCache ≠ [] := by
  exact ⟨rfl, by decide⟩

/-- C4 (amended): if init on a fresh state fails at window-class
registration, window creation, or shell registration, it returns -1 and
every OS registration made during the attempt has been released (no class,
window or shell registration remains, and no menu or description was
recorded) — but the icon cache populated at the start of the attempt is
retained rather than released (it is freed only by `tray_exit`). -/
theorem C4_init_failure_cleanup (os : OsOracle) (st : TrayState) (t : TrayDesc)
    (hclass : st.classRegistered = false) (hwin : st.windowCreated = false)
    (hshell : st.shellIconAdded = false)
    (hfail : os.registerClassOk = false ∨ os.createWindowOk = false ∨
      os.shellAddOk = false) :
    (tray_init os st t).1 = -1 ∧
    (tray_init os st t).2.classRegistered = false ∧
    (tray_init os st t).2.windowCreated = false ∧
    (tray_init os st t).2.shellIconAdded = false ∧
    (tray_init os st t).2.hmenu = st.hmenu ∧
    (tray_init os st t).2.g_tray = st.g_tray ∧
    (tray_init os st t).2.iconCache = _init_icon_cache os.decode t.allIconPaths := by
  by_cases h1 : os.registerClassOk
  · by_cases h2 : os.createWindowOk
    · have h3 : os.shellAddOk = false := by
        rcases hfail with h | h | h
        · exact absurd h1 (by simp [h])
        · exact absurd h2 (by simp [h])
        · exact h
      simp [tray_init, h1, h2, h3, hclass, hwin, hshell]
    · have h2f : os.createWindowOk = false := by
        simpa using h2
      simp [tray_init, h1, h2f, hclass, hwin, hshell]
  · have h1f : os.registerClassOk = false := by
      simpa using h1
    simp [tray_init, h1f, hclass, hwin, hshell]

/-- Witness for C4: the concrete failing init of the counterexample input
leaves no class/window/shell registration, and its cache holds the decoded
entry for "a". -/
theorem C4_init_failure_cleanup_witness :
    (tray_init { okOracle with registerClassOk := false } freshState plainDesc).1
      = -1 ∧
    (tray_init { okOracle with registerClassOk := false } freshState
      plainDesc).2.classRegistered = false ∧
    (tray_init { okOracle with registerClassOk := false } freshState
      plainDesc).2.windowCreated = false ∧
    (tray_init { okOracle with registerClassOk := false } freshState
      plainDesc).2.shellIconAdded = false ∧
    (tray_init { okOracle with registerClassOk := false } freshState
      plainDesc).2.hmenu = freshState.hmenu ∧
    (tray_init { okOracle with registerClassOk := false } freshState
      plainDesc).2.g_tray = freshState.g_tray ∧
    (tray_init { okOracle with registerClassOk := false } freshState
      plainDesc).2.iconCache
      = _init_icon_cache ({ okOracle with registerClassOk := false } :
          OsOracle).decode plainDesc.allIconPaths :=
  C4_init_failure_cleanup { okOracle with registerClassOk := false } freshState
    plainDesc rfl rfl rfl (Or.inl rfl)

/-- C5: every update recomputes the complete notify-icon flag set from
scratch: the applied flags are independent of all previous `nid` contents
(two states with the same icon cache get identical flags), each flag is
asserted exactly when its field is present in the given description
(message/guid always, icon iff the cache resolves one, tip iff a non-empty
tooltip is given, info iff a notification title or text is given); in
particular, updating with a tooltip and then with the tooltip omitted
leaves the tip flag clear and the tooltip buffer empty after the second
call. -/
theorem C5_update_recomputes_flags (os : OsOracle) :
    (∀ (st1 st2 : TrayState) (t : TrayDesc), st1.iconCache = st2.iconCache →
      (tray_update os st1 t).1.nid.uFlags = (tray_update os st2 t).1.nid.uFlags) ∧
    (∀ (st : TrayState) (t : TrayDesc),
      (tray_update os st t).1.nid.uFlags
        = { message := true, guid := true,
            icon := (_fetch_icon os.decode st.iconCache t.icon
              IconType.regular).handle.isSome,
            tip := hasStr t.tooltip, showtip := hasStr t.tooltip,
            info := hasStr t.notification_title || hasStr t.notification_text }) ∧
    (∀ (st : TrayState) (t1 t2 : TrayDesc), hasStr t2.tooltip = false →
      (tray_update os (tray_update os st t1).1 t2).1.nid.uFlags.tip = false ∧
      (tray_update os (tray_update os st t1).1 t2).1.nid.szTip = []) := by
  have key : ∀ (st : TrayState) (t : TrayDesc),
      (tray_update os st t).1.nid.uFlags
        = { message := true, guid := true,
            icon := (_fetch_icon os.decode st.iconCache t.icon
              IconType.regular).handle.isSome,
            tip := hasStr t.tooltip, showtip := hasStr t.tooltip,
            info := hasStr t.notification_title || hasStr t.notification_text } := by
    intro st t
    rw [tray_update_fst_nid os st t, updateNid_uFlags]
  refine ⟨?_, key, ?_⟩
  · intro st1 st2 t hcache
    rw [key st1 t, key st2 t, hcache]
  · intro st t1 t2 htip
    constructor
    · rw [key ((tray_update os st t1).1) t2]
      exact htip
    · rw [tray_update_fst_nid os ((tray_update os st t1).1) t2, updateNid_szTip]
      rw [if_neg (by simp [htip])]

/-- A state like `freshState` but with residual `nid` contents. -/
def staleNidState : TrayState :=
  { freshState with nid := { Nid.fresh with szTip := ['x'], uFlags := msgGuidFlags } }

/-- Witness for C5: updating with tooltip "Hi" and then with no tooltip
leaves the tip flag clear and the tooltip buffer empty; and two states
differing in their previous `nid` yield the same flags. -/
theorem C5_update_recomputes_flags_witness :
    ((tray_update okOracle (tray_update okOracle freshState tooltipDesc).1
        plainDesc).1.nid.uFlags.tip = false ∧
     (tray_update okOracle (tray_update okOracle freshState tooltipDesc).1
        plainDesc).1.nid.szTip = []) ∧
    (tray_update okOracle freshState plainDesc).1.nid.uFlags
      = (tray_update okOracle staleNidState plainDesc).1.nid.uFlags :=
  ⟨(C5_update_recomputes_flags okOracle).2.2 freshState tooltipDesc plainDesc rfl,
   (C5_update_recomputes_flags okOracle).1 freshState staleNidState plainDesc rfl⟩

/-- C6: after a successful `update(desc)` (which leaves `desc` on record in
`g_tray`), receiving the shell-restart broadcast (`TaskbarCreated`)
re-registers the notify icon (`NIM_ADD`), re-asserts the notify-icon
version opt-in (`NIM_SETVERSION`, with `uVersion = 4`), rebuilds the menu
from `desc` and re-runs the update with `desc` (applying `NIM_MODIFY`, the
active menu handle afterwards being the fresh build of `desc`'s tree and
the description still on record), all without invoking any caller-supplied
callback. -/
theorem C6_shell_restart_reapplies (os : OsOracle) (st0 : TrayState) (t : TrayDesc) :
    ((_tray_wnd_proc os (tray_update os st0 t).1 WndMsg.taskbarCreated).2.any
      Event.isNimAdd = true) ∧
    ((_tray_wnd_proc os (tray_update os st0 t).1 WndMsg.taskbarCreated).2.any
      Event.isNimSetVersion = true) ∧
    ((_tray_wnd_proc os (tray_update os st0 t).1 WndMsg.taskbarCreated).2.any
      Event.isNimModify = true) ∧
    ((_tray_wnd_proc os (tray_update os st0 t).1 WndMsg.taskbarCreated).1.hmenu
      = some (_tray_menu t.menu [] 0 ID_TRAY_FIRST).1) ∧
    ((_tray_wnd_proc os (tray_update os st0 t).1 WndMsg.taskbarCreated).1.g_tray
      = some t) ∧
    ((_tray_wnd_proc os (tray_update os st0 t).1 WndMsg.taskbarCreated).1.nid.uVersion
      = 4) ∧
    ((_tray_wnd_proc os (tray_update os st0 t).1 WndMsg.taskbarCreated).2.all
      (fun e => !e.isUserCallback) = true) := by
  refine ⟨rfl, rfl, rfl, rfl, rfl, ?_, rfl⟩
  show (tray_update os _ t).1.nid.uVersion = 4
  rw [tray_update_fst_nid, updateNid_uVersion]

/-- Witness-style check for C6 on a concrete run is subsumed by the theorem
having no hypotheses; this auxiliary equality pins the concrete trace of
the restart handler after `update(plainDesc)` on the fresh state. -/
theorem C6_shell_restart_trace_concrete :
    (_tray_wnd_proc okOracle (tray_update okOracle freshState plainDesc).1
      WndMsg.taskbarCreated).2
      = [Event.nimAdd, Event.nimSetVersion,
         Event.menuInstalled NativeMenu.nil, Event.menuDestroyed NativeMenu.nil,
         Event.menuInstalled NativeMenu.nil, Event.nimModify,
         Event.menuDestroyed NativeMenu.nil] := rfl

/-- C8 counterexample: the claim says the loop returns the terminate value
exactly when a shutdown signal has been observed, but in blocking mode a
`GetMessageA` error return (-1) also makes `tray_loop` return -1 with no
quit signal observed. -/
theorem C8_counterexample_error_return :
    tray_loop true GetMessageOutcome.err [] = -1 ∧
    GetMessageOutcome.err ≠ GetMessageOutcome.quit := by
  exact ⟨rfl, by decide⟩

theorem tray_loop_drain_neg_iff :
    ∀ q : List QMsg, ((tray_loop_drain q).1 = -1 ↔ QMsg.quit ∈ q) := by
  intro q
  induction q with
  | nil => simp [tray_loop_drain]
  | cons m rest ih =>
    cases m with
    | quit => simp [tray_loop_drain]
    | other k => simpa [tray_loop_drain] using ih

theorem tray_loop_drain_no_quit :
    ∀ q : List QMsg, QMsg.quit ∉ q → tray_loop_drain q = (0, []) := by
  intro q
  induction q with
  | nil => intro _; rfl
  | cons m rest ih =>
    intro hq
    cases m with
    | quit => exact absurd (List.mem_cons_self _ _) hq
    | other k =>
      have : QMsg.quit ∉ rest := fun hr => hq (List.mem_cons_of_mem _ hr)
      simpa [tray_loop_drain] using ih this

/-- C8 (amended): the loop returns the terminate value exactly when a
shutdown signal has been observed or (blocking mode only) the blocking
message wait itself fails with an error: in blocking mode it returns
terminate iff the wait yielded `WM_QUIT` or an error, and continue on any
dispatched message; in non-blocking mode it returns terminate iff a quit
message was encountered during the drain, and otherwise drains the whole
queue and returns continue once the queue is empty. -/
theorem C8_loop_terminate_on_quit :
    (∀ (g : GetMessageOutcome) (q : List QMsg),
      (tray_loop true g q = -1
        ↔ (g = GetMessageOutcome.quit ∨ g = GetMessageOutcome.err))) ∧
    (∀ (g : GetMessageOutcome) (q : List QMsg),
      (tray_loop false g q = -1 ↔ QMsg.quit ∈ q)) ∧
    (∀ (g : GetMessageOutcome) (q : List QMsg), QMsg.quit ∉ q →
      tray_loop false g q = 0 ∧ tray_loop_drain q = (0, [])) := by
  refine ⟨?_, ?_, ?_⟩
  · intro g q
    cases g <;> simp [tray_loop, tray_loop_blocking]
  · intro g q
    simpa [tray_loop] using tray_loop_drain_neg_iff q
  · intro g q hq
    have h := tray_loop_drain_no_quit q hq
    exact ⟨by simp [tray_loop, h], h⟩

/-- Witness for C8: draining the quit-free queue `[other 5]` returns
continue with the queue fully drained. -/
theorem C8_loop_terminate_on_quit_witness :
    tray_loop false GetMessageOutcome.quit [QMsg.other 5] = 0 ∧
    tray_loop_drain [QMsg.other 5] = (0, []) :=
  C8_loop_terminate_on_quit.2.2 GetMessageOutcome.quit [QMsg.other 5] (by decide)

/-- C9: in every execution of `tray_update`, the previously installed menu
handle is destroyed only after the newly built handle has been installed:
the update's event trace never destroys a menu before an install has
happened, and every `menuDestroyed` event concerns exactly the previously
active handle and is preceded by the installation of the fresh build. -/
theorem C9_destroy_only_after_install (os : OsOracle) (st : TrayState) (t : TrayDesc) :
    destroyedOnlyAfterInstall (tray_update os st t).2 false = true ∧
    (∀ (j : Nat) (pm : NativeMenu),
      (tray_update os st t).2.get? j = some (Event.menuDestroyed pm) →
      st.hmenu = some pm ∧
      ∃ i, i < j ∧ (tray_update os st t).2.get? i
        = some (Event.menuInstalled (_tray_menu t.menu [] 0 ID_TRAY_FIRST).1)) := by
  rw [tray_update_snd os st t]
  cases hm : st.hmenu with
  | none =>
    refine ⟨rfl, ?_⟩
    intro j pm h
    rcases j with _ | _ | j <;> simp [List.get?] at h
  | some pm0 =>
    refine ⟨rfl, ?_⟩
    intro j pm h
    rcases j with _ | _ | _ | j <;> simp [List.get?] at h
    subst h
    exact ⟨rfl, 0, by omega, rfl⟩

/-- Witness for C9: on a state whose active menu is the empty handle, the
destroy event sits at index 2 of the update trace, after the install at
index 0. -/
theorem C9_destroy_only_after_install_witness :
    ({ freshState with hmenu := some NativeMenu.nil } : TrayState).hmenu
      = some NativeMenu.nil ∧
    ∃ i, i < 2 ∧
      (tray_update okOracle { freshState with hmenu := some NativeMenu.nil }
        plainDesc).2.get? i
        = some (Event.menuInstalled (_tray_menu plainDesc.menu [] 0
            ID_TRAY_FIRST).1) :=
  (C9_destroy_only_after_install okOracle
    { freshState with hmenu := some NativeMenu.nil } plainDesc).2 2
    NativeMenu.nil rfl

end Tray
